import Mathlib

/-!
Shallow embedding of the GNSS station-network receiver generator
(`gnssReceiverGeneratorStationNetwork.cpp`) and the signal-bias
parametrization (`gnssParametrizationSignalBiases.cpp`), together with
theorems settling the specification claims about them.

Real quantities (sampling intervals, residuals, biases) are modelled as
rationals; per-epoch flags as lists of booleans; C++ exceptions as an
`Option String` error channel threaded through the computation (an
exception carries the state at the throw point, since the C++ code
mutates the receiver in place).
-/

namespace Groops

/-- The preprocessing stages invoked on a receiver, in the sense of the
methods called inside `GnssReceiverGeneratorStationNetwork::preprocessing`
(source lines 324-333). -/
inductive Stage where
  | createTracks
  | estimateInitialClockErrorFromCodeObservations
  | disableEpochsWithGrossCodeObservationOutliers
  | writeTracksBefore
  | cycleSlipsDetection
  | removeLowElevationTracks
  | trackOutlierDetection
  | cycleSlipsRepairAtSameFrequency
  | writeTracksAfter
deriving Repr, DecidableEq

/-- Configuration thresholds read in the constructor (source lines 67-78). -/
structure Config where
  huber : ℚ
  huberPower : ℚ
  codeMaxPosDiff : ℚ
  denoisingLambda : ℚ
  tecWindowSize : Nat
  tecSigmaFactor : ℚ
  minObsCountPerTrack : Nat
  elevationTrackMinimum : ℚ
  minEstimableEpochsRatio : ℚ
deriving Repr, DecidableEq

/-- Observable state of one `GnssReceiver` as far as the orchestration code
in src is concerned: station name, the distribution flag `isMyRank_`, the
station-level useable flag, the per-epoch useable flags, the observation
sampling, the per-epoch code residuals consumed by the gross-outlier stage,
and a ghost trace recording which stages ran (used only to state ordering
theorems; no stage reads it). -/
structure RecvState where
  name : String
  isMyRank : Bool
  stationUseable : Bool
  useableEpoch : List Bool
  observationSampling : ℚ
  codeResidual : List ℚ
  trace : List Stage
deriving Repr, DecidableEq

/-- Number of `true` entries of a boolean list. -/
def countTrue (l : List Bool) : Nat := (l.filter (fun b => b)).length

/-- Modelled from the spec: `GnssReceiver::useable(idEpoch)` is not under
src; an epoch counts as useable when the station is useable and the epoch
flag is set. Mirrors the count loop of source lines 336-339. -/
def RecvState.useableEpochCount (r : RecvState) : Nat :=
  if r.stationUseable then countTrue r.useableEpoch else 0

/-- Modelled from the spec: `GnssReceiver::disable()` (no argument) is not
under src; the spec says the receiver is "disabled wholesale (all epochs,
not just flagged ones)". -/
def RecvState.disable (r : RecvState) : RecvState :=
  { r with stationUseable := false,
           useableEpoch := r.useableEpoch.map (fun _ => false) }

/-- Modelled from the spec: `GnssReceiver::disable(idEpoch)` is not under
src; it clears the useable flag of the single epoch `i`. -/
def RecvState.disableEpoch (r : RecvState) (i : Nat) : RecvState :=
  { r with useableEpoch := r.useableEpoch.set i false }

/-- A stage implementation: the bodies of the `GnssReceiver` methods called
by `preprocessing` are not under src, so the orchestration theorems are
proved for an arbitrary implementation. A stage returns the mutated
receiver and, on a thrown exception, its message. -/
def StageImpl : Type := Stage → RecvState → RecvState × Option String

/-- Sequencing of stage calls: a stage runs only when no earlier stage
threw (C++ control flow inside the `try` block). -/
def stageStep (impl : StageImpl) (s : Stage) (x : RecvState × Option String) :
    RecvState × Option String :=
  match x with
  | (r, none) => impl s r
  | (r, some e) => (r, some e)

/-- The station-level usability gate of source lines 336-344: if
`countEpochs * observationSampling < minEstimableEpochsRatio * times.size()
* medianSampling` the receiver is disabled and the disabled-station counter
is incremented (second component). -/
def usabilityGate (cfg : Config) (numEpochs : Nat) (medianSamp : ℚ)
    (r : RecvState) : RecvState × Nat :=
  if (r.useableEpochCount : ℚ) * r.observationSampling <
      cfg.minEstimableEpochsRatio * (numEpochs : ℚ) * medianSamp
  then (r.disable, 1) else (r, 0)

/-- The body of the `try` block of source lines 320-344: the stage calls in
source order (lines 324-333), then the usability gate. Returns the receiver
together with the disabled-station increment, and the exception message if
one was thrown. -/
def stationTry (impl : StageImpl) (cfg : Config) (numEpochs : Nat)
    (medianSamp : ℚ) (r : RecvState) : (RecvState × Nat) × Option String :=
  let x := impl .createTracks r
  let x := stageStep impl .estimateInitialClockErrorFromCodeObservations x
  let x := stageStep impl .disableEpochsWithGrossCodeObservationOutliers x
  let x := stageStep impl .writeTracksBefore x
  let x := stageStep impl .cycleSlipsDetection x
  let x := stageStep impl .removeLowElevationTracks x
  let x := stageStep impl .trackOutlierDetection x
  let x := stageStep impl .cycleSlipsRepairAtSameFrequency x
  let x := stageStep impl .writeTracksAfter x
  match x with
  | (r2, none) => (usabilityGate cfg numEpochs medianSamp r2, none)
  | (r2, some e) => ((r2, 0), some e)

/-- The per-station `try`/`catch` of source lines 320-351: on an exception
the receiver (in its state at the throw point) is disabled, the counter is
incremented and one warning line is produced. -/
def processStation (impl : StageImpl) (cfg : Config) (numEpochs : Nat)
    (medianSamp : ℚ) (r : RecvState) : RecvState × Nat × List String :=
  match stationTry impl cfg numEpochs medianSamp r with
  | ((r2, d), none) => (r2, d, [])
  | ((r2, _), some e) => (r2.disable, 1, [r.name ++ " disabled: " ++ e])

/-- One iteration of `Single::forEach` (source lines 315-353): a station is
processed only when its `isMyRank_` flag is set. -/
def stationStep (impl : StageImpl) (cfg : Config) (numEpochs : Nat)
    (medianSamp : ℚ) (r : RecvState) : RecvState × Nat × List String :=
  if r.isMyRank then processStation impl cfg numEpochs medianSamp r
  else (r, 0, [])

/-- The whole per-station loop of `preprocessing` on one worker: receivers
after the loop, the local disabled-station count, and the warnings. -/
def preprocessingLocal (impl : StageImpl) (cfg : Config) (numEpochs : Nat)
    (medianSamp : ℚ) : List RecvState → List RecvState × Nat × List String
  | [] => ([], 0, [])
  | r :: rest =>
    let a := stationStep impl cfg numEpochs medianSamp r
    let b := preprocessingLocal impl cfg numEpochs medianSamp rest
    (a.1 :: b.1, a.2.1 + b.2.1, a.2.2 ++ b.2.2)

/-- Modelled from the spec: downstream estimation and output consume only
receivers that are still useable; a receiver disabled wholesale is excluded
from any output. -/
def downstreamReceivers (recvs : List RecvState) : List RecvState :=
  recvs.filter (fun r => r.stationUseable)

/-- Instrumentation used only to state ordering theorems: every stage
records itself in the ghost trace and succeeds. -/
def tracingImpl : StageImpl :=
  fun s r => ({ r with trace := r.trace ++ [s] }, none)

/-- The order in which `preprocessing` invokes the stages
(source lines 324-333). -/
def sourceStageOrder : List Stage :=
  [.createTracks,
   .estimateInitialClockErrorFromCodeObservations,
   .disableEpochsWithGrossCodeObservationOutliers,
   .writeTracksBefore,
   .cycleSlipsDetection,
   .removeLowElevationTracks,
   .trackOutlierDetection,
   .cycleSlipsRepairAtSameFrequency,
   .writeTracksAfter]

/-- The seven core (non-diagnostic) stages named by the spec. -/
def coreStages : List Stage :=
  [.createTracks,
   .estimateInitialClockErrorFromCodeObservations,
   .disableEpochsWithGrossCodeObservationOutliers,
   .cycleSlipsDetection,
   .removeLowElevationTracks,
   .trackOutlierDetection,
   .cycleSlipsRepairAtSameFrequency]

/-- The stage order asserted by the claim, restricted to the seven core
stages: ClockInitializer first, then GrossOutlierRejector, then
TrackSegmenter, then CycleSlipDetector, then the elevation TrackFilter,
then TrackOutlierDetector, then CycleSlipRepairer. -/
def claimedCoreStageOrder : List Stage :=
  [.estimateInitialClockErrorFromCodeObservations,
   .disableEpochsWithGrossCodeObservationOutliers,
   .createTracks,
   .cycleSlipsDetection,
   .removeLowElevationTracks,
   .trackOutlierDetection,
   .cycleSlipsRepairAtSameFrequency]

/-- A sample configuration (the documented defaults of source
lines 67-78). -/
def cfgEx : Config :=
  { huber := 5/2, huberPower := 3/2, codeMaxPosDiff := 100,
    denoisingLambda := 5, tecWindowSize := 15, tecSigmaFactor := 7/2,
    minObsCountPerTrack := 60, elevationTrackMinimum := 15,
    minEstimableEpochsRatio := 3/4 }

/-- A sample receiver with four epochs, all useable. -/
def rEx : RecvState :=
  { name := "GRAZ", isMyRank := true, stationUseable := true,
    useableEpoch := [true, true, true, true], observationSampling := 30,
    codeResidual := [0, 0, 0, 0], trace := [] }

/-- Modelled from the spec:
`GnssReceiver::disableEpochsWithGrossCodeObservationOutliers` is not under
src; per the spec it disables any epoch whose code residual exceeds the
threshold scaled by the tolerance factor (an epoch stays useable exactly
when it was useable and its residual does not exceed `factor * threshold`).
The station-level flag is untouched. -/
def grossOutlierMask (threshold factor : ℚ) (useable : List Bool)
    (residual : List ℚ) : List Bool :=
  List.zipWith (fun u e => u && decide (e ≤ factor * threshold)) useable residual

/-- Modelled from the spec (continued): the receiver after the
gross-outlier stage carries the filtered epoch mask; nothing else of the
receiver changes. -/
def disableEpochsWithGrossCodeOutliers (threshold factor : ℚ)
    (r : RecvState) : RecvState :=
  { r with useableEpoch := grossOutlierMask threshold factor r.useableEpoch r.codeResidual }

/-- The gross-outlier stage exactly as invoked at source line 327:
`recv->disableEpochsWithGrossCodeObservationOutliers(eqn, codeMaxPosDiff, 0.5)`,
that is threshold `codeMaxPosDiff` and tolerance factor `0.5`. -/
def grossOutlierStage (cfg : Config) (r : RecvState) : RecvState :=
  disableEpochsWithGrossCodeOutliers cfg.codeMaxPosDiff (1/2) r

/-- A sample receiver whose first epoch carries a 150 m code residual
(the scenario of the spec). -/
def rEx150 : RecvState := { rEx with codeResidual := [150, 10, 0, 0] }

/-- A stage implementation that throws on the very first stage; used to
exercise the exception path of `processStation`. -/
def errImpl : StageImpl := fun _ r => (r, some "boom")

/-- The result of `GnssStationInfo::findAntenna` at one epoch together
with the presence of its antenna and accuracy definitions (source
lines 191-192); the `none` case models `idAnt == NULLINDEX` (no antenna
valid at the epoch's time). `findAntenna` itself is not under src. -/
structure Antenna where
  hasAntennaDef : Bool
  hasAccuracyDef : Bool
deriving Repr, DecidableEq, Inhabited

/-- The per-epoch antenna setup loop of source lines 189-199: each epoch
keeps its useable flag exactly when an antenna is valid at its time and
that antenna has both an antenna definition and an accuracy definition;
otherwise `disable(idEpoch)` clears exactly that epoch. -/
def setupEpochs (ants : List (Option Antenna)) (mask : List Bool) : List Bool :=
  List.zipWith (fun a u => match a with
    | some ant => if ant.hasAntennaDef && ant.hasAccuracyDef then u else false
    | none => false) ants mask

/-- The receiver is constructed with every epoch useable:
`Vector(times.size(), TRUE)` at source line 152. -/
def initialMask (n : Nat) : List Bool := List.replicate n true

/-- One data alternative of a station (source lines 117-159 and 174-228):
whether its observation file exists (line 123), the per-epoch antenna
lookup results (lines 189-199), the extra usable-epoch mask produced by
`readObservations` (`none` models an exception thrown while setting up or
reading this alternative, including an unreadable station-info file in the
first loop), and the receiver's observation sampling. -/
structure Alternative where
  name : String
  obsFileExists : Bool
  antennaFound : List (Option Antenna)
  readObsMask : Option (List Bool)
  observationSampling : ℚ
deriving Repr, DecidableEq, Inhabited

/-- The epoch mask after the antenna setup loop. -/
def maskAfterSetup (a : Alternative) : List Bool :=
  setupEpochs a.antennaFound (initialMask a.antennaFound.length)

/-- Modelled from the spec: `GnssReceiver::readObservations` is not under
src; an unreadable observation file throws (the `none` case) and reading
may disable further epochs, modelled by conjoining an extra mask onto the
mask left by the antenna setup. -/
def maskAfterRead (a : Alternative) : Option (List Bool) :=
  match a.readObsMask with
  | none => none
  | some extra => some (List.zipWith (fun u v => u && v) (maskAfterSetup a) extra)

/-- The acceptance test of the alternative loop: the observation file
exists (source lines 123-124), no exception occurs while reading (lines
224-227), and the epoch count passes
`countEpochs * observationSampling ≥ minEstimableEpochsRatio * totalEpochs
* medianSampling` (line 217 `continue`s on the strict `<`). -/
def acceptsAlternative (cfg : Config) (numEpochs : Nat) (medianSamp : ℚ)
    (a : Alternative) : Bool :=
  a.obsFileExists &&
    match maskAfterRead a with
    | none => false
    | some m => decide (cfg.minEstimableEpochsRatio * (numEpochs : ℚ) * medianSamp ≤ (countTrue m : ℚ) * a.observationSampling)

/-- `receiverAlternative(i)` as computed by the loop of source lines
174-228: the 1-based index of the first accepted alternative (`k+1` at
line 221, followed by `break`), `0` when no alternative is accepted. -/
def selectAlternative (cfg : Config) (numEpochs : Nat) (medianSamp : ℚ) :
    List Alternative → Nat
  | [] => 0
  | a :: rest =>
    if acceptsAlternative cfg numEpochs medianSamp a then 1
    else
      match selectAlternative cfg numEpochs medianSamp rest with
      | 0 => 0
      | k + 1 => k + 2

/-- The storing loop of source lines 237-243: stations with
`receiverAlternative(i) == 0` are skipped, otherwise the selected
alternative is stored, and the loop `break`s once `maxStationCount`
receivers are stored. -/
def storeValidGo (cfg : Config) (numEpochs : Nat) (medianSamp : ℚ)
    (maxStationCount : Nat) :
    List (List Alternative) → List Alternative → List Alternative
  | [], acc => acc.reverse
  | alts :: rest, acc =>
    match selectAlternative cfg numEpochs medianSamp alts with
    | 0 => storeValidGo cfg numEpochs medianSamp maxStationCount rest acc
    | k + 1 =>
      let acc2 := alts.getD k default :: acc
      if maxStationCount ≤ acc2.length then acc2.reverse
      else storeValidGo cfg numEpochs medianSamp maxStationCount rest acc2

/-- The receivers stored by `init` (source lines 237-244). -/
def storedReceivers (cfg : Config) (numEpochs : Nat) (medianSamp : ℚ)
    (maxStationCount : Nat) (stations : List (List Alternative)) :
    List Alternative :=
  storeValidGo cfg numEpochs medianSamp maxStationCount stations []

/-- The worker distribution of the read loop (source lines 170-171):
station `i` is handled exactly by the worker whose rank equals
`i % Parallel::size(comm)`; handling a station sets the `isMyRank_` flag
of its receiver (line 180). Receivers are constructed with
`isMyRank_ = FALSE` (line 152). -/
def initAssignFrom (rank P : Nat) : Nat → List RecvState → List RecvState
  | _, [] => []
  | i, r :: rest =>
    (if i % P = rank then { r with isMyRank := true } else r) ::
      initAssignFrom rank P (i + 1) rest

/-- The flags after the read loop of one worker. -/
def initAssign (rank P : Nat) (recvs : List RecvState) : List RecvState :=
  initAssignFrom rank P 0 recvs

/-- The local `receiverAlternative` vector of one worker (source lines
168-229): it starts as the zero vector and the worker writes entries only
for the stations assigned to it. -/
def localSelectFrom (rank P : Nat) (cfg : Config) (numEpochs : Nat)
    (medianSamp : ℚ) : Nat → List (List Alternative) → List ℚ
  | _, [] => []
  | i, alts :: rest =>
    (if i % P = rank then (selectAlternative cfg numEpochs medianSamp alts : ℚ) else 0) ::
      localSelectFrom rank P cfg numEpochs medianSamp (i + 1) rest

/-- The local `receiverAlternative` vector of worker `rank` in a
communicator of `P` workers. -/
def localSelect (rank P : Nat) (cfg : Config) (numEpochs : Nat)
    (medianSamp : ℚ) (stations : List (List Alternative)) : List ℚ :=
  localSelectFrom rank P cfg numEpochs medianSamp 0 stations

/-- Componentwise sum of a family of equal-length vectors. -/
def vecSumList : List (List ℚ) → List ℚ
  | [] => []
  | [v] => v
  | v :: rest => List.zipWith (fun x y => x + y) v (vecSumList rest)

/-- Modelled from the spec: `Parallel::reduceSum(x, 0, comm)` is not under
src; per the spec it is "an explicit reduce (sum across workers)": the
root rank receives the sum of all workers' values while the buffers of
the other ranks stay unchanged (MPI reduce semantics). Scalar variant. -/
def reduceSumNat (root P : Nat) (locals : Nat → Nat) : Nat → Nat :=
  fun rank => if rank = root then ((List.range P).map locals).sum else locals rank

/-- Modelled from the spec: vector variant of `Parallel::reduceSum`. -/
def reduceSumVec (root P : Nat) (locals : Nat → List ℚ) : Nat → List ℚ :=
  fun rank =>
    if rank = root then vecSumList ((List.range P).map locals) else locals rank

/-- Modelled from the spec: `Parallel::broadCast(x, 0, comm)` replaces
every rank's value by the root's value. -/
def broadCastVec (root : Nat) (locals : Nat → List ℚ) : Nat → List ℚ :=
  fun _ => locals root

/-- A second sample receiver (used to build two-worker scenarios). -/
def rExB : RecvState := { rEx with name := "WTZR" }

/-- The receiver list of worker `w` in a two-worker, two-station
scenario: both receivers start with `isMyRank_ = FALSE` and the read loop
sets the flags of the stations assigned to `w`. -/
def workerRecvs (w : Nat) : List RecvState :=
  initAssign w 2 [{ rEx with isMyRank := false }, { rExB with isMyRank := false }]

/-- The local disabled-station count of worker `w` in that scenario when
every station fails preprocessing. -/
def dLocalsEx (w : Nat) : Nat :=
  (preprocessingLocal errImpl cfgEx 4 30 (workerRecvs w)).2.1

/-- A file-name template as used through `VariableList`: whether the
configured string is empty, and the evaluation of the template on the
value of its variable (`{station}` or `{prn}`). `FileName` evaluation is
external library code, kept opaque as a function. -/
structure FileNameTmpl where
  empty : Bool
  apply : String → String

/-- One signal-bias entry: the GNSS type's `== GnssType::PHASE` test, its
carrier frequency and the bias value in meters. -/
structure BiasEntry where
  isPhase : Bool
  frequency : ℚ
  bias : ℚ
deriving Repr, DecidableEq

/-- A receiver as seen by `GnssParametrizationSignalBiases`: name,
selection by `selectReceivers`, useability, `isMyRank_`,
`normalEquationInfo.estimateReceiver` and the stored signal biases. -/
structure BiasRecv where
  name : String
  selected : Bool
  useable : Bool
  isMyRank : Bool
  estimateReceiver : Bool
  signalBias : List BiasEntry
deriving Repr, DecidableEq

/-- Modelled from the spec: `disable()` on a receiver of the signal-bias
module clears its useability. -/
def BiasRecv.disable (r : BiasRecv) : BiasRecv := { r with useable := false }

/-- The body of the receiver loop of `GnssParametrizationSignalBiases::init`
(source lines 75-88) for one receiver: when selected and useable, the file
at the path built from the TRANSMITTER template `fileNameInTransmitter`
(source line 81) is read into the receiver's signal bias; on a read
failure the warning names the path built from the receiver template
`fileNameInReceiver` (line 85) and the receiver is disabled (line 86).
Returns the receiver, the warnings, and the paths passed to
`readFileGnssSignalBias`. -/
def initBiasReceiverOne (tmplTrans tmplRecv : FileNameTmpl)
    (readFile : String → Option (List BiasEntry)) (r : BiasRecv) :
    BiasRecv × List String × List String :=
  if r.selected && r.useable then
    match readFile (tmplTrans.apply r.name) with
    | some b => ({ r with signalBias := b }, [], [tmplTrans.apply r.name])
    | none =>
        (r.disable,
         ["Unable to read signal bias file <" ++ tmplRecv.apply r.name ++ ">, disabling receiver."],
         [tmplTrans.apply r.name])
  else (r, [], [])

/-- The receiver half of `GnssParametrizationSignalBiases::init` (source
lines 70-89): skipped entirely when `inputfileSignalBiasReceiver` is
empty, else the loop over all receivers. -/
def signalBiasesInitReceivers (tmplTrans tmplRecv : FileNameTmpl)
    (readFile : String → Option (List BiasEntry)) :
    List BiasRecv → List BiasRecv × List String × List String
  | [] => ([], [], [])
  | r :: rest =>
    let a := initBiasReceiverOne tmplTrans tmplRecv readFile r
    let b := signalBiasesInitReceivers tmplTrans tmplRecv readFile rest
    (a.1 :: b.1, a.2.1 ++ b.2.1, a.2.2 ++ b.2.2)

/-- `GnssParametrizationSignalBiases::init`, receiver branch, including
the emptiness guard of source line 70. -/
def signalBiasesInit (tmplTrans tmplRecv : FileNameTmpl)
    (readFile : String → Option (List BiasEntry)) (recvs : List BiasRecv) :
    List BiasRecv × List String × List String :=
  if tmplRecv.empty then (recvs, [], [])
  else signalBiasesInitReceivers tmplTrans tmplRecv readFile recvs

/-- The speed of light in m/s (`LIGHT_VELOCITY`). -/
def lightVelocity : ℚ := 299792458

/-- Round to the nearest integer, ties to even: the rounding used by
`std::remainder`. -/
def roundEven (q : ℚ) : ℤ :=
  if Int.fract q < 1/2 then ⌊q⌋
  else if 1/2 < Int.fract q then ⌊q⌋ + 1
  else if ⌊q⌋ % 2 = 0 then ⌊q⌋ else ⌊q⌋ + 1

/-- `std::remainder(x, y)`: `x - y * n` where `n` is `x / y` rounded to
the nearest integer, ties to even. -/
def stdRemainder (x y : ℚ) : ℚ := x - y * (roundEven (x / y) : ℚ)

/-- The per-entry transformation of `writeResults` (source lines 116-118
and 134-136): a phase-type bias is replaced by
`std::remainder(bias, LIGHT_VELOCITY / frequency)`; every other bias is
written unchanged. -/
def writeEntry (e : BiasEntry) : BiasEntry :=
  if e.isPhase then { e with bias := stdRemainder e.bias (lightVelocity / e.frequency) } else e

/-- The signal-bias record written to file: the loop of source
lines 116-118 (and 134-136) applied to a local copy
(`GnssSignalBias signalBias = ...->signalBias`). -/
def signalBiasWritten (entries : List BiasEntry) : List BiasEntry :=
  entries.map writeEntry

/-- A transmitter as seen by `GnssParametrizationSignalBiases`. -/
structure BiasTrans where
  name : String
  selected : Bool
  useable : Bool
  signalBias : List BiasEntry
deriving Repr, DecidableEq

/-- The transmitter half of `writeResults` (source lines 106-122) on the
master rank: for each useable selected transmitter, a file with the
wrapped phase biases is written; the stored transmitter states are not
modified (the loop works on a local copy, line 115). -/
def writeResultsTransmitters (tmplOutTrans : FileNameTmpl)
    (transList : List BiasTrans) : List BiasTrans × List (String × List BiasEntry) :=
  if tmplOutTrans.empty then (transList, [])
  else
    (transList,
     (transList.filter (fun t => t.useable && t.selected)).map
       (fun t => (tmplOutTrans.apply t.name, signalBiasWritten t.signalBias)))

/-- The receiver half of `writeResults` (source lines 124-140): for each
receiver of this rank that is selected and estimated, a file with the
wrapped phase biases is written; the stored receiver states are not
modified (the loop works on a local copy, line 133). -/
def writeResultsReceivers (tmplOutRecv : FileNameTmpl)
    (recvs : List BiasRecv) : List BiasRecv × List (String × List BiasEntry) :=
  if tmplOutRecv.empty then (recvs, [])
  else
    (recvs,
     (recvs.filter (fun r => r.isMyRank && r.selected && r.estimateReceiver)).map
       (fun r => (tmplOutRecv.apply r.name, signalBiasWritten r.signalBias)))

/-- A sample antenna-lookup sequence: epoch 0 complete, epoch 1 without a
valid antenna, epoch 2 without an antenna definition, epoch 3 without an
accuracy definition. -/
def antsEx : List (Option Antenna) :=
  [some ⟨true, true⟩, none, some ⟨false, true⟩, some ⟨true, false⟩]

/-- A sample alternative that is accepted: observation file present, all
four epochs complete and read, sampling 30 s. -/
def altGood : Alternative :=
  { name := "GRAZ", obsFileExists := true,
    antennaFound := [some ⟨true, true⟩, some ⟨true, true⟩, some ⟨true, true⟩, some ⟨true, true⟩],
    readObsMask := some [true, true, true, true], observationSampling := 30 }

/-- A sample alternative whose observation file is missing. -/
def altNoFile : Alternative := { altGood with name := "GRAZ2", obsFileExists := false }

/-- A sample alternative whose observation reading throws. -/
def altThrows : Alternative := { altGood with name := "GRAZ3", readObsMask := none }

/-- A sample transmitter-side file-name template. -/
def tmplTransEx : FileNameTmpl := ⟨false, fun s => "tx_" ++ s ++ ".txt"⟩

/-- A sample receiver-side file-name template, different from the
transmitter-side one on every station name. -/
def tmplRecvEx : FileNameTmpl := ⟨false, fun s => "rx_" ++ s ++ ".txt"⟩

/-- A file system on which every signal-bias read fails. -/
def readFileNoneEx : String → Option (List BiasEntry) := fun _ => none

/-- A sample receiver of the signal-bias module. -/
def biasRecvEx : BiasRecv :=
  { name := "GRAZ", selected := true, useable := true, isMyRank := true,
    estimateReceiver := true, signalBias := [] }

/-- A sample phase-bias entry whose carrier wavelength is exactly 1 m. -/
def phaseEntryEx : BiasEntry :=
  { isPhase := true, frequency := lightVelocity, bias := 7/3 }

end Groops

namespace Groops

theorem zipWith_get {α β γ : Type} (f : α → β → γ) :
    ∀ (a : List α) (b : List β) (i : Nat),
      (List.zipWith f a b).get? i =
        match a.get? i, b.get? i with
        | some x, some y => some (f x y)
        | _, _ => none := by
  intro a
  induction a with
  | nil => intro b i; cases b <;> cases i <;> simp
  | cons x xs ih =>
    intro b i
    cases b with
    | nil => cases i <;> simp
    | cons y ys => cases i with
      | zero => simp
      | succ n => simpa using ih ys n

theorem processStation_error (impl : StageImpl) (cfg : Config) (nE : Nat)
    (ms : ℚ) (r r2 : RecvState) (d : Nat) (e : String)
    (herr : stationTry impl cfg nE ms r = ((r2, d), some e)) :
    processStation impl cfg nE ms r =
      (r2.disable, 1, [r.name ++ " disabled: " ++ e]) := by
  simp [processStation, herr]

theorem preprocessingLocal_eq (impl : StageImpl) (cfg : Config) (nE : Nat)
    (ms : ℚ) (recvs : List RecvState) :
    preprocessingLocal impl cfg nE ms recvs =
      (recvs.map (fun r => (stationStep impl cfg nE ms r).1),
       (recvs.map (fun r => (stationStep impl cfg nE ms r).2.1)).sum,
       (recvs.map (fun r => (stationStep impl cfg nE ms r).2.2)).flatten) := by
  induction recvs with
  | nil => simp [preprocessingLocal]
  | cons r rest ih => simp [preprocessingLocal, ih]

theorem usabilityGate_trace (cfg : Config) (nE : Nat) (ms : ℚ)
    (r : RecvState) : ((usabilityGate cfg nE ms r).1).trace = r.trace := by
  unfold usabilityGate
  split <;> simp [RecvState.disable]

theorem stationTry_tracing_trace (cfg : Config) (nE : Nat) (ms : ℚ)
    (r : RecvState) :
    ((stationTry tracingImpl cfg nE ms r).1.1).trace =
      r.trace ++ sourceStageOrder := by
  simp [stationTry, stageStep, tracingImpl, sourceStageOrder, usabilityGate_trace]

/-- C1 (amended): the per-station pipeline runs the stages in the order of
the source: `createTracks` (TrackSegmenter) first, then
`estimateInitialClockErrorFromCodeObservations` (ClockInitializer), then
`disableEpochsWithGrossCodeObservationOutliers` (GrossOutlierRejector),
then cycle-slip detection, the elevation track filter, track outlier
detection and cycle-slip repair (with the diagnostic track dumps around
detection), and finally the usability gate is evaluated on the state left
by all stages. In particular the gross-outlier pre-filter runs after track
segmentation. -/
theorem stationTry_stage_order (cfg : Config) (numEpochs : Nat)
    (medianSamp : ℚ) (r : RecvState) (h : r.trace = []) :
    stationTry tracingImpl cfg numEpochs medianSamp r =
      (usabilityGate cfg numEpochs medianSamp { r with trace := sourceStageOrder },
       none) := by
  simp [stationTry, stageStep, tracingImpl, sourceStageOrder, h]

/-- Witness for C1's amended theorem at a concrete configuration and
receiver. -/
theorem stationTry_stage_order_witness :
    stationTry tracingImpl cfgEx 4 30 rEx =
      (usabilityGate cfgEx 4 30 { rEx with trace := sourceStageOrder },
       none) :=
  stationTry_stage_order cfgEx 4 30 rEx rfl

/-- C1 counterexample: at a concrete configuration and receiver, the
sequence of core stages actually executed is not the order stated by the
claim; the first stage executed is track segmentation (`createTracks`),
not the clock initializer, so the gross-outlier pre-filter does not run
before track segmentation. -/
theorem stationTry_claimed_order_false :
    ((stationTry tracingImpl cfgEx 4 30 rEx).1.1.trace.filter
        (fun s => decide (s ∈ coreStages))) ≠ claimedCoreStageOrder
    ∧ (stationTry tracingImpl cfgEx 4 30 rEx).1.1.trace.take 1 =
        [Stage.createTracks] := by
  have h := stationTry_tracing_trace cfgEx 4 30 rEx
  rw [show rEx.trace = [] from rfl] at h
  constructor
  · rw [h]; decide
  · rw [h]; decide

/-- C3: the station-level usability gate disables the receiver (and
increments the disabled-station counter) exactly when
`countEpochs * observationSampling` is strictly less than
`minEstimableEpochsRatio * totalEpochCount * medianSampling`; at exact
equality the receiver is returned unchanged (boundary inclusive). On
disabling, every epoch flag of the receiver is cleared and the disabled
receiver is excluded from the downstream receiver set. -/
theorem usabilityGate_spec (cfg : Config) (numEpochs : Nat) (medianSamp : ℚ)
    (r : RecvState) :
    (((usabilityGate cfg numEpochs medianSamp r).2 = 1 ∧
      (usabilityGate cfg numEpochs medianSamp r).1 = r.disable) ↔
      (r.useableEpochCount : ℚ) * r.observationSampling <
        cfg.minEstimableEpochsRatio * (numEpochs : ℚ) * medianSamp)
    ∧ ((r.useableEpochCount : ℚ) * r.observationSampling =
        cfg.minEstimableEpochsRatio * (numEpochs : ℚ) * medianSamp →
        usabilityGate cfg numEpochs medianSamp r = (r, 0))
    ∧ (∀ b ∈ r.disable.useableEpoch, b = false)
    ∧ r.disable.stationUseable = false
    ∧ (∀ l, r.disable ∉ downstreamReceivers l) := by
  refine ⟨?_, ?_, ?_, ?_, ?_⟩
  · unfold usabilityGate
    split
    · rename_i h
      simp [h]
    · rename_i h
      constructor
      · rintro ⟨h1, -⟩
        simp at h1
      · intro hlt; exact absurd hlt h
  · intro heq
    unfold usabilityGate
    split
    · rename_i h
      rw [heq] at h
      exact absurd h (lt_irrefl _)
    · rfl
  · intro b hb
    simp [RecvState.disable] at hb
    exact hb.2
  · rfl
  · intro l hmem
    have := List.mem_filter.mp hmem
    simp [RecvState.disable] at this

/-- Witness for C3 at the boundary: a concrete receiver whose usable-epoch
product exactly equals the threshold product is retained unchanged. -/
theorem usabilityGate_spec_witness :
    usabilityGate cfgEx 4 40 rEx = (rEx, 0) := by
  have h := usabilityGate_spec cfgEx 4 40 rEx
  exact h.2.1 (by norm_num [RecvState.useableEpochCount, countTrue, rEx, cfgEx])

/-- C5: the gross-outlier stage, invoked with threshold `codeMaxPosDiff`
and tolerance factor `0.5` as at source line 327, keeps an epoch useable
exactly when it was useable before and its code residual does not exceed
`0.5 * codeMaxPosDiff`; the station-level useable flag (and the station
itself) is untouched by the stage. -/
theorem grossOutlier_spec (cfg : Config) (r : RecvState)
    (i : Nat) (hu : i < r.useableEpoch.length)
    (hc : i < r.codeResidual.length) :
    ((grossOutlierStage cfg r).useableEpoch.get? i =
      some ((r.useableEpoch.get ⟨i, hu⟩) &&
            decide ((r.codeResidual.get ⟨i, hc⟩) ≤ (1/2) * cfg.codeMaxPosDiff)))
    ∧ (grossOutlierStage cfg r).stationUseable = r.stationUseable
    ∧ (grossOutlierStage cfg r).name = r.name := by
  refine ⟨?_, rfl, rfl⟩
  have h := zipWith_get (fun u e => u && decide (e ≤ (1/2) * cfg.codeMaxPosDiff))
    r.useableEpoch r.codeResidual i
  have hu2 : r.useableEpoch.get? i = some (r.useableEpoch.get ⟨i, hu⟩) :=
    List.get?_eq_get hu
  have hc2 : r.codeResidual.get? i = some (r.codeResidual.get ⟨i, hc⟩) :=
    List.get?_eq_get hc
  show (grossOutlierMask cfg.codeMaxPosDiff (1/2) r.useableEpoch r.codeResidual).get? i = _
  rw [grossOutlierMask, h, hu2, hc2]

/-- Witness for C5: a 150 m residual against `codeMaxPositionDiff = 100`
disables that epoch (threshold 50 after scaling), a 10 m residual epoch
survives, and the station as a whole remains usable. -/
theorem grossOutlier_spec_witness :
    (grossOutlierStage cfgEx rEx150).useableEpoch.get? 0 = some false
    ∧ (grossOutlierStage cfgEx rEx150).useableEpoch.get? 1 = some true
    ∧ (grossOutlierStage cfgEx rEx150).stationUseable = true := by
  have h0 := grossOutlier_spec cfgEx rEx150 0 (by decide) (by decide)
  have h1 := grossOutlier_spec cfgEx rEx150 1 (by decide) (by decide)
  refine ⟨?_, ?_, ?_⟩
  · rw [h0.1]
    simp [rEx150, rEx, cfgEx]
    norm_num
  · rw [h1.1]
    simp [rEx150, rEx, cfgEx]
    norm_num
  · exact h0.2.1

/-- C4: a stage exception for one station is caught at the per-station
boundary of `preprocessing`: the receiver, in its state at the throw
point, is disabled wholesale, exactly one `"... disabled: ..."` warning is
logged for it, the disabled-station counter counts it, and every other
station of the loop is still processed (the output at every index is that
station's own processing result, so the exception never propagates out of
the per-station call). -/
theorem preprocessing_catches_station_failure (impl : StageImpl)
    (cfg : Config) (nE : Nat) (ms : ℚ) (recvs : List RecvState)
    (i : Nat) (hi : i < recvs.length)
    (hmy : (recvs.get ⟨i, hi⟩).isMyRank = true)
    (r2 : RecvState) (d : Nat) (e : String)
    (herr : stationTry impl cfg nE ms (recvs.get ⟨i, hi⟩) = ((r2, d), some e)) :
    ((preprocessingLocal impl cfg nE ms recvs).1.get? i = some r2.disable)
    ∧ r2.disable.stationUseable = false
    ∧ (∀ b ∈ r2.disable.useableEpoch, b = false)
    ∧ (stationStep impl cfg nE ms (recvs.get ⟨i, hi⟩)).2.2 =
        [(recvs.get ⟨i, hi⟩).name ++ " disabled: " ++ e]
    ∧ ((recvs.get ⟨i, hi⟩).name ++ " disabled: " ++ e) ∈
        (preprocessingLocal impl cfg nE ms recvs).2.2
    ∧ (preprocessingLocal impl cfg nE ms recvs).1.length = recvs.length
    ∧ (∀ j (hj : j < recvs.length),
        (preprocessingLocal impl cfg nE ms recvs).1.get? j =
          some (stationStep impl cfg nE ms (recvs.get ⟨j, hj⟩)).1)
    ∧ (preprocessingLocal impl cfg nE ms recvs).2.1 =
        (recvs.map (fun r => (stationStep impl cfg nE ms r).2.1)).sum := by
  have hstep : stationStep impl cfg nE ms (recvs.get ⟨i, hi⟩) =
      (r2.disable, 1, [(recvs.get ⟨i, hi⟩).name ++ " disabled: " ++ e]) := by
    rw [stationStep, if_pos hmy]
    exact processStation_error impl cfg nE ms _ r2 d e herr
  rw [preprocessingLocal_eq]
  refine ⟨?_, rfl, ?_, ?_, ?_, ?_, ?_, rfl⟩
  · rw [List.get?_map, List.get?_eq_get hi, Option.map_some', hstep]
  · intro b hb
    simp [RecvState.disable] at hb
    exact hb.2
  · rw [hstep]
  · apply List.mem_flatten.mpr
    refine ⟨[(recvs.get ⟨i, hi⟩).name ++ " disabled: " ++ e], ?_, by simp⟩
    apply List.mem_map.mpr
    exact ⟨recvs.get ⟨i, hi⟩, List.get_mem recvs i hi, by rw [hstep]⟩
  · simp
  · intro j hj
    rw [List.get?_map, List.get?_eq_get hj, Option.map_some']

/-- Witness for C4: with an implementation throwing "boom" on the first
stage, the single station is disabled and its warning is logged. -/
theorem preprocessing_catches_station_failure_witness :
    (preprocessingLocal errImpl cfgEx 4 30 [rEx]).1.get? 0 = some rEx.disable
    ∧ (rEx.name ++ " disabled: " ++ "boom") ∈
        (preprocessingLocal errImpl cfgEx 4 30 [rEx]).2.2 := by
  have h := preprocessing_catches_station_failure errImpl cfgEx 4 30 [rEx] 0
    (by decide) (by rfl) rEx 0 "boom" (by rfl)
  exact ⟨h.1, h.2.2.2.2.1⟩

/-- C8: during the receiver setup of `init`, an epoch is disabled exactly
when no antenna is valid at the epoch's time or the applicable antenna
lacks an antenna definition or an accuracy definition; every epoch is
processed (each entry of the resulting mask is determined by that epoch's
own antenna lookup alone) and a defective epoch never aborts the
alternative: the exception path of reading is reached only through a
thrown exception, not through an antenna defect. -/
theorem setupEpochs_spec (ants : List (Option Antenna)) (i : Nat)
    (hi : i < ants.length) :
    ((setupEpochs ants (initialMask ants.length)).length = ants.length)
    ∧ ((setupEpochs ants (initialMask ants.length)).get? i =
        some (match ants.get ⟨i, hi⟩ with
              | some ant => ant.hasAntennaDef && ant.hasAccuracyDef
              | none => false))
    ∧ (∀ a : Alternative, a.readObsMask ≠ none → maskAfterRead a ≠ none) := by
  refine ⟨by simp [setupEpochs, initialMask], ?_, ?_⟩
  · have h1 : (initialMask ants.length).get? i = some true := by
      rw [initialMask, List.get?_eq_get (by simpa using hi)]
      simp
    have h := zipWith_get (fun a u => match a with
      | some ant => if ant.hasAntennaDef && ant.hasAccuracyDef then u else false
      | none => false) ants (initialMask ants.length) i
    rw [setupEpochs, h, List.get?_eq_get hi, h1]
    cases hx : ants.get ⟨i, hi⟩ with
    | none => rfl
    | some ant =>
      cases h2 : ant.hasAntennaDef && ant.hasAccuracyDef <;> simp [h2]
  · intro a ha
    rw [maskAfterRead]
    cases hx : a.readObsMask with
    | none => exact absurd hx ha
    | some extra => simp

/-- Witness for C8: epoch 0 (complete antenna) stays useable, epoch 1 (no
valid antenna) is disabled, epoch 2 (missing antenna definition) and
epoch 3 (missing accuracy definition) are disabled. -/
theorem setupEpochs_spec_witness :
    (setupEpochs antsEx (initialMask antsEx.length)).get? 0 = some true
    ∧ (setupEpochs antsEx (initialMask antsEx.length)).get? 1 = some false
    ∧ (setupEpochs antsEx (initialMask antsEx.length)).get? 2 = some false
    ∧ (setupEpochs antsEx (initialMask antsEx.length)).get? 3 = some false := by
  have h0 := setupEpochs_spec antsEx 0 (by decide)
  have h1 := setupEpochs_spec antsEx 1 (by decide)
  have h2 := setupEpochs_spec antsEx 2 (by decide)
  have h3 := setupEpochs_spec antsEx 3 (by decide)
  exact ⟨by rw [h0.2.1]; rfl, by rw [h1.2.1]; rfl,
         by rw [h2.2.1]; rfl, by rw [h3.2.1]; rfl⟩

theorem selectAlternative_append (cfg : Config) (nE : Nat) (ms : ℚ)
    (a : Alternative) (suf : List Alternative)
    (ha : acceptsAlternative cfg nE ms a = true) :
    ∀ pre : List Alternative,
      (∀ b ∈ pre, acceptsAlternative cfg nE ms b = false) →
      selectAlternative cfg nE ms (pre ++ a :: suf) = pre.length + 1
  | [], _ => by simp [selectAlternative, ha]
  | b :: pre, hpre => by
    have hb : acceptsAlternative cfg nE ms b = false := hpre b (by simp)
    have hrest := selectAlternative_append cfg nE ms a suf ha pre
      (fun x hx => hpre x (by simp [hx]))
    rw [List.cons_append, selectAlternative, hrest]
    simp [hb]

theorem selectAlternative_eq_zero (cfg : Config) (nE : Nat) (ms : ℚ) :
    ∀ alts : List Alternative,
      (selectAlternative cfg nE ms alts = 0 ↔
        ∀ b ∈ alts, acceptsAlternative cfg nE ms b = false)
  | [] => by simp [selectAlternative]
  | a :: rest => by
    rw [selectAlternative]
    cases ha : acceptsAlternative cfg nE ms a with
    | true =>
      simp only [if_true]
      constructor
      · intro h; exact absurd h (by simp)
      · intro h; exact absurd ha (by simp [h a (List.mem_cons_self a rest)])
    | false =>
      simp only [Bool.false_eq_true, if_false]
      cases hr : selectAlternative cfg nE ms rest with
      | zero =>
        constructor
        · intro _ b hb
          rcases List.mem_cons.mp hb with h | h
          · rw [h]; exact ha
          · exact ((selectAlternative_eq_zero cfg nE ms rest).mp hr) b h
        · intro _; rfl
      | succ k =>
        constructor
        · intro h; exact absurd h (by simp)
        · intro h
          have h0 : selectAlternative cfg nE ms rest = 0 :=
            (selectAlternative_eq_zero cfg nE ms rest).mpr
              (fun b hb => h b (by simp [hb]))
          rw [h0] at hr; cases hr

theorem storedReceivers_skip (cfg : Config) (nE : Nat) (ms : ℚ) (mc : Nat)
    (alts : List Alternative) (rest : List (List Alternative))
    (h : selectAlternative cfg nE ms alts = 0) :
    storedReceivers cfg nE ms mc (alts :: rest) =
      storedReceivers cfg nE ms mc rest := by
  rw [storedReceivers, storedReceivers, storeValidGo, h]

theorem getD_append_cons (a : Alternative) (suf : List Alternative) :
    ∀ pre : List Alternative, (pre ++ a :: suf).getD pre.length default = a
  | [] => rfl
  | b :: pre => by
    rw [List.cons_append, List.length_cons, List.getD_cons_succ]
    exact getD_append_cons a suf pre

/-- C9: `init` selects, per station, the first alternative in list order
that is accepted — observation file exists, reading succeeds without an
exception, and `countEpochs * observationSampling ≥
minEstimableEpochsRatio * totalEpochs * medianSampling`; the selected
1-based index does not depend on the alternatives after the selected one
(the loop breaks there, so they are not tried), the selected index indeed
denotes that alternative, the selected index is `0` exactly when no
alternative qualifies, and a station whose selected index is `0` is
excluded from the stored receiver set. -/
theorem initAlternativeSelection (cfg : Config) (nE : Nat) (ms : ℚ)
    (mc : Nat) (pre : List Alternative) (a : Alternative)
    (hpre : ∀ b ∈ pre, acceptsAlternative cfg nE ms b = false)
    (ha : acceptsAlternative cfg nE ms a = true) :
    (∀ suf : List Alternative,
        selectAlternative cfg nE ms (pre ++ a :: suf) = pre.length + 1)
    ∧ (∀ suf : List Alternative,
        (pre ++ a :: suf).getD pre.length default = a)
    ∧ (∀ x : Alternative, acceptsAlternative cfg nE ms x = true ↔
        (x.obsFileExists = true ∧ ∃ m, maskAfterRead x = some m ∧
          cfg.minEstimableEpochsRatio * (nE : ℚ) * ms ≤
            (countTrue m : ℚ) * x.observationSampling))
    ∧ (∀ alts : List Alternative,
        (selectAlternative cfg nE ms alts = 0 ↔
          ∀ b ∈ alts, acceptsAlternative cfg nE ms b = false))
    ∧ (∀ (alts : List Alternative) (rest : List (List Alternative)),
        selectAlternative cfg nE ms alts = 0 →
        storedReceivers cfg nE ms mc (alts :: rest) =
          storedReceivers cfg nE ms mc rest) := by
  refine ⟨fun suf => selectAlternative_append cfg nE ms a suf ha pre hpre,
          fun suf => getD_append_cons a suf pre, ?_,
          selectAlternative_eq_zero cfg nE ms,
          storedReceivers_skip cfg nE ms mc⟩
  intro x
  rw [acceptsAlternative]
  cases hm : maskAfterRead x with
  | none => simp [hm]
  | some m => simp [hm]

/-- Witness for C9: with one rejected alternative (missing file) before an
accepted one, the selected index is 2, it denotes the accepted
alternative, and a throwing alternative is not accepted. -/
theorem initAlternativeSelection_witness :
    selectAlternative cfgEx 4 30 [altNoFile, altGood] = 2
    ∧ [altNoFile, altGood].getD 1 default = altGood
    ∧ selectAlternative cfgEx 4 30 [altNoFile, altThrows] = 0 := by
  have h := initAlternativeSelection cfgEx 4 30 0 [altNoFile] altGood
    (by intro b hb; simp at hb; rw [hb]; rfl)
    (by
      rw [acceptsAlternative]
      show (true && _) = true
      rw [Bool.true_and]
      rw [show maskAfterRead altGood = some [true, true, true, true] from rfl]
      rw [decide_eq_true_eq]
      show (3/4 : ℚ) * 4 * 30 ≤ (4 : ℚ) * 30
      norm_num)
  refine ⟨h.1 [], h.2.1 [], ?_⟩
  rw [(h.2.2.2.1 [altNoFile, altThrows]).mpr]
  intro b hb
  simp at hb
  rcases hb with h1 | h1 <;> rw [h1] <;> rfl

theorem initAssignFrom_get (rank P : Nat) :
    ∀ (j i : Nat) (recvs : List RecvState),
      (initAssignFrom rank P j recvs).get? i =
        (recvs.get? i).map
          (fun r => if (j + i) % P = rank then { r with isMyRank := true } else r)
  | _, _, [] => by simp [initAssignFrom]
  | j, 0, r :: rest => by simp [initAssignFrom]
  | j, i + 1, r :: rest => by
    rw [initAssignFrom]
    show (initAssignFrom rank P (j + 1) rest).get? i = _
    rw [initAssignFrom_get rank P (j + 1) i rest]
    simp only [show j + 1 + i = j + (i + 1) from by omega]
    rfl

theorem localSelectFrom_get (rank P : Nat) (cfg : Config) (nE : Nat) (ms : ℚ) :
    ∀ (j i : Nat) (stations : List (List Alternative)),
      (localSelectFrom rank P cfg nE ms j stations).get? i =
        (stations.get? i).map
          (fun alts => if (j + i) % P = rank
                       then (selectAlternative cfg nE ms alts : ℚ) else 0)
  | _, _, [] => by simp [localSelectFrom]
  | j, 0, alts :: rest => by simp [localSelectFrom]
  | j, i + 1, alts :: rest => by
    rw [localSelectFrom]
    show (localSelectFrom rank P cfg nE ms (j + 1) rest).get? i = _
    rw [localSelectFrom_get rank P cfg nE ms (j + 1) i rest]
    simp only [show j + 1 + i = j + (i + 1) from by omega]
    rfl

/-- C7: stations are partitioned round-robin. In `init`, station `i` is
mutated (its `isMyRank_` flag set) exactly by the worker whose rank is
`i % size`, and the local `receiverAlternative` entry of station `i` is
computed (non-trivially) only by that worker, every other worker leaving
its zero; in `preprocessing`, a receiver not of this rank is returned
unchanged with no count or warning, while a receiver of this rank gets the
full per-station processing, and the loop output at every index is that
station's own result. -/
theorem roundRobin_partition (rank P : Nat) (recvs : List RecvState)
    (impl : StageImpl) (cfg : Config) (nE : Nat) (ms : ℚ)
    (stations : List (List Alternative)) (i : Nat) (hi : i < recvs.length) :
    ((initAssign rank P recvs).get? i =
        some (if i % P = rank then { recvs.get ⟨i, hi⟩ with isMyRank := true }
              else recvs.get ⟨i, hi⟩))
    ∧ (i % P ≠ rank → (initAssign rank P recvs).get? i = some (recvs.get ⟨i, hi⟩))
    ∧ (∀ hs : i < stations.length,
        (localSelect rank P cfg nE ms stations).get? i =
          some (if i % P = rank
                then (selectAlternative cfg nE ms (stations.get ⟨i, hs⟩) : ℚ)
                else 0))
    ∧ ((recvs.get ⟨i, hi⟩).isMyRank = false →
        stationStep impl cfg nE ms (recvs.get ⟨i, hi⟩) = (recvs.get ⟨i, hi⟩, 0, []))
    ∧ ((recvs.get ⟨i, hi⟩).isMyRank = true →
        stationStep impl cfg nE ms (recvs.get ⟨i, hi⟩) =
          processStation impl cfg nE ms (recvs.get ⟨i, hi⟩))
    ∧ ((preprocessingLocal impl cfg nE ms recvs).1.get? i =
        some (stationStep impl cfg nE ms (recvs.get ⟨i, hi⟩)).1) := by
  have hbase : (initAssign rank P recvs).get? i =
      some (if (0 + i) % P = rank then { recvs.get ⟨i, hi⟩ with isMyRank := true }
            else recvs.get ⟨i, hi⟩) := by
    rw [initAssign, initAssignFrom_get rank P 0 i recvs, List.get?_eq_get hi,
        Option.map_some']
  refine ⟨?_, ?_, ?_, ?_, ?_, ?_⟩
  · rw [hbase]; simp
  · intro hne
    rw [hbase]
    simp [hne]
  · intro hs
    rw [localSelect, localSelectFrom_get rank P cfg nE ms 0 i stations,
        List.get?_eq_get hs, Option.map_some']
    simp
  · intro h
    rw [stationStep, if_neg (by rw [h]; exact Bool.false_ne_true)]
  · intro h
    rw [stationStep, if_pos h]
  · rw [preprocessingLocal_eq]
    rw [List.get?_map, List.get?_eq_get hi, Option.map_some']

/-- Witness for C7 in the two-worker, two-station scenario: worker 1 owns
station 1 and not station 0; station 0 is unchanged on worker 1. -/
theorem roundRobin_partition_witness :
    (initAssign 1 2 [{ rEx with isMyRank := false }, { rExB with isMyRank := false }]).get? 0 =
      some { rEx with isMyRank := false }
    ∧ (workerRecvs 1).get? 1 = some { rExB with isMyRank := true } := by
  have h := roundRobin_partition 1 2
    [{ rEx with isMyRank := false }, { rExB with isMyRank := false }]
    errImpl cfgEx 4 30 [] 0 (by decide)
  have h2 := roundRobin_partition 1 2
    [{ rEx with isMyRank := false }, { rExB with isMyRank := false }]
    errImpl cfgEx 4 30 [] 1 (by decide)
  refine ⟨?_, ?_⟩
  · rw [h.2.1 (by decide)]
    rfl
  · rw [show workerRecvs 1 = initAssign 1 2
        [{ rEx with isMyRank := false }, { rExB with isMyRank := false }] from rfl]
    rw [h2.1]
    rfl

theorem vecSumList_nil_all {α : Type} : ∀ ws : List α,
    vecSumList (ws.map (fun _ => ([] : List ℚ))) = []
  | [] => rfl
  | [_] => rfl
  | _ :: w2 :: ws => by
    show List.zipWith (fun x y => x + y) []
      (vecSumList ((w2 :: ws).map (fun _ => ([] : List ℚ)))) = []
    simp

theorem vecSumList_cons {α : Type} (x : α → ℚ) (v : α → List ℚ) :
    ∀ ws : List α, ws ≠ [] →
      vecSumList (ws.map (fun w => x w :: v w)) =
        (ws.map x).sum :: vecSumList (ws.map v)
  | [], h => absurd rfl h
  | [w], _ => by simp [vecSumList]
  | w :: w2 :: ws, _ => by
    have ih := vecSumList_cons x v (w2 :: ws) (by simp)
    show List.zipWith (fun a b => a + b) (x w :: v w)
        (vecSumList ((w2 :: ws).map (fun w => x w :: v w))) = _
    rw [ih]
    show (x w + ((w2 :: ws).map x).sum) ::
        List.zipWith (fun a b => a + b) (v w) (vecSumList ((w2 :: ws).map v)) = _
    rw [List.map_cons, List.sum_cons]
    rfl

theorem sum_map_range_ite_zero (c : ℚ) :
    ∀ P m : Nat, P ≤ m →
      ((List.range P).map (fun w => if m = w then c else 0)).sum = 0
  | 0, _, _ => rfl
  | P + 1, m, h => by
    rw [List.range_succ, List.map_append, List.sum_append,
        sum_map_range_ite_zero c P m (by omega)]
    have hm : m ≠ P := by omega
    simp [hm]

theorem sum_map_range_ite (c : ℚ) :
    ∀ P m : Nat, m < P →
      ((List.range P).map (fun w => if m = w then c else 0)).sum = c
  | 0, m, h => absurd h (by omega)
  | P + 1, m, h => by
    rw [List.range_succ, List.map_append, List.sum_append]
    by_cases hm : m = P
    · rw [hm, sum_map_range_ite_zero c P P (le_refl P)]
      simp
    · rw [sum_map_range_ite c P m (by omega)]
      simp [hm]

theorem vecSum_localSelect (cfg : Config) (nE : Nat) (ms : ℚ) (P : Nat)
    (hP : 0 < P) :
    ∀ (j : Nat) (stations : List (List Alternative)),
      vecSumList ((List.range P).map
          (fun w => localSelectFrom w P cfg nE ms j stations)) =
        stations.map (fun alts => (selectAlternative cfg nE ms alts : ℚ))
  | j, [] => by
    rw [show (List.range P).map
          (fun w => localSelectFrom w P cfg nE ms j ([] : List (List Alternative))) =
        (List.range P).map (fun _ => ([] : List ℚ)) from by simp [localSelectFrom]]
    rw [vecSumList_nil_all]
    rfl
  | j, alts :: rest => by
    rw [show (List.range P).map
          (fun w => localSelectFrom w P cfg nE ms j (alts :: rest)) =
        (List.range P).map
          (fun w => (if j % P = w then (selectAlternative cfg nE ms alts : ℚ) else 0) ::
            localSelectFrom w P cfg nE ms (j + 1) rest) from by simp [localSelectFrom]]
    rw [vecSumList_cons _ _ (List.range P)
        (by rw [Ne, List.range_eq_nil]; omega)]
    rw [sum_map_range_ite _ P (j % P) (Nat.mod_lt j hP)]
    rw [vecSum_localSelect cfg nE ms P hP (j + 1) rest]
    rfl

/-- C6 (amended): after the reduce and broadcast of source lines 232-233,
every worker's `receiverAlternative` vector is identical: each station's
entry is exactly that station's selected alternative, whichever rank reads
it. The disabled-station count of source line 355, by contrast, is only
reduced to rank 0 and not broadcast: rank 0 ends with the global sum over
all workers while every other rank keeps its local count. -/
theorem reduceBroadcast_aggregates (cfg : Config) (nE : Nat) (ms : ℚ)
    (P : Nat) (hP : 0 < P) (stations : List (List Alternative))
    (rank i : Nat) (hi : i < stations.length) (dLocals : Nat → Nat) :
    ((broadCastVec 0 (reduceSumVec 0 P
          (fun w => localSelect w P cfg nE ms stations)) rank).get? i =
        some ((selectAlternative cfg nE ms (stations.get ⟨i, hi⟩) : ℚ)))
    ∧ (reduceSumNat 0 P dLocals 0 = ((List.range P).map dLocals).sum)
    ∧ (∀ w, w ≠ 0 → reduceSumNat 0 P dLocals w = dLocals w) := by
  refine ⟨?_, by simp [reduceSumNat], ?_⟩
  · rw [broadCastVec, reduceSumVec]
    rw [if_pos rfl]
    rw [show (fun w => localSelect w P cfg nE ms stations) =
        fun w => localSelectFrom w P cfg nE ms 0 stations from rfl]
    rw [vecSum_localSelect cfg nE ms P hP 0 stations]
    rw [List.get?_map, List.get?_eq_get hi, Option.map_some']
  · intro w hw
    simp [reduceSumNat, hw]

/-- Witness for C6's amended theorem: in the two-worker, two-station
scenario each worker locally disables its own station; rank 0 ends with
the global count 2 after the reduce and rank 1 keeps its local count 1;
the alternative vector entry of station 0 is the same on both ranks. -/
theorem reduceBroadcast_aggregates_witness :
    reduceSumNat 0 2 dLocalsEx 0 = 2
    ∧ reduceSumNat 0 2 dLocalsEx 1 = 1
    ∧ (broadCastVec 0 (reduceSumVec 0 2
          (fun w => localSelect w 2 cfgEx 4 30 [[altGood]])) 1).get? 0 =
        some ((selectAlternative cfgEx 4 30 [altGood] : ℚ)) := by
  have h := reduceBroadcast_aggregates cfgEx 4 30 2 (by omega) [[altGood]] 1 0
    (by decide) dLocalsEx
  refine ⟨?_, ?_, h.1⟩
  · rw [h.2.1]; rfl
  · rw [h.2.2 1 (by omega)]
    rfl

/-- C6 counterexample: in the same concrete two-worker run, the value held
by worker 1 after the reduce of source line 355 (no broadcast follows it)
is its local count 1, which differs from the global count 2 held by
rank 0 — so not every worker ends with the single global disabled-station
count. -/
theorem disabledCount_not_global_on_all_workers :
    reduceSumNat 0 2 dLocalsEx 1 = 1
    ∧ reduceSumNat 0 2 dLocalsEx 0 = 2
    ∧ reduceSumNat 0 2 dLocalsEx 1 ≠ reduceSumNat 0 2 dLocalsEx 0 := by
  refine ⟨rfl, rfl, ?_⟩
  intro h
  rw [show reduceSumNat 0 2 dLocalsEx 1 = 1 from rfl,
      show reduceSumNat 0 2 dLocalsEx 0 = 2 from rfl] at h
  cases h

theorem signalBiasesInitReceivers_eq (tmplTrans tmplRecv : FileNameTmpl)
    (readFile : String → Option (List BiasEntry)) (recvs : List BiasRecv) :
    signalBiasesInitReceivers tmplTrans tmplRecv readFile recvs =
      (recvs.map (fun r => (initBiasReceiverOne tmplTrans tmplRecv readFile r).1),
       (recvs.map (fun r => (initBiasReceiverOne tmplTrans tmplRecv readFile r).2.1)).flatten,
       (recvs.map (fun r => (initBiasReceiverOne tmplTrans tmplRecv readFile r).2.2)).flatten) := by
  induction recvs with
  | nil => simp [signalBiasesInitReceivers]
  | cons r rest ih => simp [signalBiasesInitReceivers, ih]

/-- C2: with a non-empty `inputfileSignalBiasReceiver`, the receiver
branch of `init` runs over all receivers, and for every selected useable
receiver the path passed to `readFileGnssSignalBias` is built from the
TRANSMITTER template `inputfileSignalBiasTransmitter` with the station
variable substituted with the receiver's name; on a read failure, the
warning nevertheless names the path built from the receiver template and
the receiver is disabled. -/
theorem signalBiasesInit_reads_transmitter_template
    (tmplTrans tmplRecv : FileNameTmpl) (hne : tmplRecv.empty = false)
    (readFile : String → Option (List BiasEntry)) (r : BiasRecv)
    (hsel : r.selected = true) (huse : r.useable = true)
    (recvs : List BiasRecv) (i : Nat) (hi : i < recvs.length) :
    ((initBiasReceiverOne tmplTrans tmplRecv readFile r).2.2 =
        [tmplTrans.apply r.name])
    ∧ (readFile (tmplTrans.apply r.name) = none →
        initBiasReceiverOne tmplTrans tmplRecv readFile r =
          (r.disable,
           ["Unable to read signal bias file <" ++ tmplRecv.apply r.name ++ ">, disabling receiver."],
           [tmplTrans.apply r.name])
        ∧ r.disable.useable = false)
    ∧ (signalBiasesInit tmplTrans tmplRecv readFile recvs =
        signalBiasesInitReceivers tmplTrans tmplRecv readFile recvs)
    ∧ ((signalBiasesInitReceivers tmplTrans tmplRecv readFile recvs).1.get? i =
        some (initBiasReceiverOne tmplTrans tmplRecv readFile (recvs.get ⟨i, hi⟩)).1)
    ∧ ((signalBiasesInitReceivers tmplTrans tmplRecv readFile recvs).2.2 =
        (recvs.map (fun x => (initBiasReceiverOne tmplTrans tmplRecv readFile x).2.2)).flatten) := by
  have hcond : (r.selected && r.useable) = true := by rw [hsel, huse]; rfl
  refine ⟨?_, ?_, ?_, ?_, ?_⟩
  · rw [initBiasReceiverOne, if_pos hcond]
    cases hr : readFile (tmplTrans.apply r.name) <;> simp
  · intro hnone
    refine ⟨?_, rfl⟩
    rw [initBiasReceiverOne, if_pos hcond, hnone]
  · rw [signalBiasesInit, if_neg (by rw [hne]; exact Bool.false_ne_true)]
  · rw [signalBiasesInitReceivers_eq]
    rw [List.get?_map, List.get?_eq_get hi, Option.map_some']
  · rw [signalBiasesInitReceivers_eq]

/-- Witness for C2: with distinct concrete templates and a file system on
which every read fails, the path actually read for receiver GRAZ is the
transmitter-template path `tx_GRAZ.txt`, while the warning names the
receiver-template path `rx_GRAZ.txt` and the receiver ends disabled. -/
theorem signalBiasesInit_reads_transmitter_template_witness :
    (initBiasReceiverOne tmplTransEx tmplRecvEx readFileNoneEx biasRecvEx).2.2 =
      ["tx_GRAZ.txt"]
    ∧ (initBiasReceiverOne tmplTransEx tmplRecvEx readFileNoneEx biasRecvEx).1.useable = false
    ∧ (initBiasReceiverOne tmplTransEx tmplRecvEx readFileNoneEx biasRecvEx).2.1 =
        ["Unable to read signal bias file <rx_GRAZ.txt>, disabling receiver."]
    ∧ "tx_GRAZ.txt" ≠ "rx_GRAZ.txt" := by
  have h := signalBiasesInit_reads_transmitter_template tmplTransEx tmplRecvEx
    rfl readFileNoneEx biasRecvEx rfl rfl [biasRecvEx] 0 (by decide)
  have h2 := h.2.1 rfl
  refine ⟨?_, ?_, ?_, by decide⟩
  · rw [h.1]; rfl
  · rw [h2.1]; rfl
  · rw [h2.1]; rfl

theorem abs_sub_roundEven (q : ℚ) : |q - (roundEven q : ℚ)| ≤ 1/2 := by
  have h0 : (0 : ℚ) ≤ Int.fract q := Int.fract_nonneg q
  have h1 : Int.fract q < 1 := Int.fract_lt_one q
  have hf : q - (⌊q⌋ : ℚ) = Int.fract q := Int.self_sub_floor q
  have hf1 : q - ((⌊q⌋ : ℚ) + 1) = Int.fract q - 1 := by rw [← hf]; ring
  rw [roundEven]
  split
  · rename_i h
    rw [hf, abs_of_nonneg h0]
    linarith
  · rename_i h
    split
    · rename_i h2
      push_cast
      rw [hf1, abs_of_nonpos (by linarith)]
      linarith
    · rename_i h2
      have heq : Int.fract q = 1/2 := le_antisymm (not_lt.mp h2) (not_lt.mp h)
      split
      · rw [hf, abs_of_nonneg h0, heq]
      · push_cast
        rw [hf1, abs_of_nonpos (by linarith), heq]
        norm_num

theorem abs_stdRemainder_le (x y : ℚ) (hy : y ≠ 0) :
    |stdRemainder x y| ≤ |y| / 2 := by
  have h := abs_sub_roundEven (x / y)
  have hrw : stdRemainder x y = y * (x / y - (roundEven (x / y) : ℚ)) := by
    rw [stdRemainder, mul_sub, mul_div_cancel₀ x hy]
  rw [hrw, abs_mul]
  calc |y| * |x / y - (roundEven (x / y) : ℚ)| ≤ |y| * (1/2) :=
        mul_le_mul_of_nonneg_left h (abs_nonneg y)
    _ = |y| / 2 := by ring

/-- C10: `writeResults` returns the stored transmitter and receiver states
unchanged (it works on local copies); the written record is the pointwise
image of the stored one, where a phase-type entry's bias is
`std::remainder` of the stored bias by one carrier wavelength
`LIGHT_VELOCITY / frequency` — hence within plus-or-minus half a
wavelength of zero — and a non-phase entry is written unchanged. -/
theorem writeResults_spec (tmplOutTrans tmplOutRecv : FileNameTmpl)
    (transList : List BiasTrans) (recvs : List BiasRecv)
    (entries : List BiasEntry) (i : Nat) (hi : i < entries.length)
    (e : BiasEntry) :
    ((writeResultsTransmitters tmplOutTrans transList).1 = transList)
    ∧ ((writeResultsReceivers tmplOutRecv recvs).1 = recvs)
    ∧ ((signalBiasWritten entries).get? i = some (writeEntry (entries.get ⟨i, hi⟩)))
    ∧ (e.isPhase = true →
        writeEntry e = { e with bias := stdRemainder e.bias (lightVelocity / e.frequency) })
    ∧ (e.isPhase = true → 0 < e.frequency →
        |(writeEntry e).bias| ≤ (lightVelocity / e.frequency) / 2)
    ∧ (e.isPhase = false → writeEntry e = e) := by
  refine ⟨?_, ?_, ?_, ?_, ?_, ?_⟩
  · rw [writeResultsTransmitters]
    split <;> rfl
  · rw [writeResultsReceivers]
    split <;> rfl
  · rw [signalBiasWritten, List.get?_map, List.get?_eq_get hi, Option.map_some']
  · intro h
    rw [writeEntry, if_pos h]
  · intro h hfreq
    have hc : (0 : ℚ) < lightVelocity := by norm_num [lightVelocity]
    have hw : (0 : ℚ) < lightVelocity / e.frequency := div_pos hc hfreq
    have hb := abs_stdRemainder_le e.bias (lightVelocity / e.frequency) (ne_of_gt hw)
    rw [writeEntry, if_pos h]
    rw [abs_of_pos hw] at hb
    exact hb
  · intro h
    rw [writeEntry, if_neg (by rw [h]; exact Bool.false_ne_true)]

/-- Witness for C10: a phase entry with wavelength exactly 1 m and stored
bias 7/3 m is written as 1/3 m, within half a wavelength of zero, and the
stored receiver list is returned unchanged. -/
theorem writeResults_spec_witness :
    (writeResultsReceivers tmplRecvEx [biasRecvEx]).1 = [biasRecvEx]
    ∧ writeEntry phaseEntryEx =
        { phaseEntryEx with bias := stdRemainder (7/3) (lightVelocity / lightVelocity) }
    ∧ |(writeEntry phaseEntryEx).bias| ≤ (lightVelocity / phaseEntryEx.frequency) / 2 := by
  have h := writeResults_spec tmplTransEx tmplRecvEx [] [biasRecvEx]
    [phaseEntryEx] 0 (by decide) phaseEntryEx
  refine ⟨h.2.1, ?_, h.2.2.2.2.1 rfl (by norm_num [phaseEntryEx, lightVelocity])⟩
  rw [h.2.2.2.1 rfl]
  rfl

end Groops
